import Mathlib

set_option maxHeartbeats 1000000

/-!
Shallow embedding of the certificate lifecycle orchestration in
pkg/server/auto_tls_init.go: the load-or-create cascade per service slot,
the bootstrap guard, the CA-transfer (bundle receive) workflow, the local
CA collection, and the rotation workflow.

The filesystem is modelled as a total map from the twenty canonical
certificate paths (five slots, four file kinds each) to a file state
(absent, present with bytes, or unreadable).  Byte blobs are modelled by
an inductive carrying a freshness tag: the external key-generation
primitives (excluded by the spec as external collaborators) are modelled
as drawing a fresh tag from a monotone counter, which encodes that newly
generated key material differs from all previously generated material.
-/

/-- Strings ("host:port" addresses, common names, service names) are
modelled as lists of characters. -/
abbrev Str := List Char

/-- The five fixed service slots of a CertificateBundle. -/
inductive Slot
  | interNode
  | userAuth
  | sqlService
  | rpcService
  | adminUI
deriving DecidableEq, Fintype

/-- The four on-disk artifacts of one slot. -/
inductive CertKind
  | hostCert
  | hostKey
  | caCert
  | caKey
deriving DecidableEq, Fintype

/-- Canonical file path of one artifact: the certnames Locator maps each
slot identity to four distinct file names inside the certs directory, so a
path is faithfully a (slot, kind) pair. -/
abbrev CertPath := Slot × CertKind

/-- PEM byte blobs.  Generated material carries the freshness tag drawn at
generation time together with the generation parameters; `raw` models
arbitrary non-PEM bytes placed in the directory by something else. -/
inductive Blob
  | caCertGen (g : Nat) (lifetime : Nat) (cn : Str)
  | caKeyGen (g : Nat)
  | svcCertGen (g : Nat) (lifetime : Nat) (cn : Str) (hostnames : List Str)
      (dualUse : Bool) (issuer : Nat)
  | svcKeyGen (g : Nat)
  | raw (d : List Nat)
deriving DecidableEq

/-- State of one file on disk.  `unreadable` models a file that exists but
whose read fails with an error other than not-found (e.g. permissions). -/
inductive FileState
  | absent
  | present (b : Blob)
  | unreadable
deriving DecidableEq

/-- The world state threaded through every operation: the filesystem, the
freshness counter of the key-generation primitives, and the log of
successful file writes. -/
structure World where
  fs : CertPath → FileState
  gen : Nat
  writes : List CertPath

/-- Errors, one constructor per distinct error-return site of the source
(wrapping constructors carry the wrapped error). -/
inductive Err
  | notFound
  | permission
  | alreadyExists
  | invalidAddress
  | alreadyInitialized
  | hostKeyMissing
  | hostKeyLoadFailed (e : Err)
  | caKeyLoadFailed (e : Err)
  | createCAFailed (e : Err)
  | decodePEMCACert
  | decodePEMCAKey
  | createCertFailed
  | createServiceCertFailed (e : Err)
  | slotInitFailed (s : Slot) (e : Err)
  | writeCAFailed (s : Slot) (e : Err)
  | initAfterBundleFailed (e : Err)
  | collectSlotFailed (s : Slot) (e : Err)
  | collectFailed (e : Err)
  | rotateSlotFailed (s : Slot) (e : Err)
  | rotateOpFailed (e : Err)
deriving DecidableEq

/-- Outcome of a workflow: success, a returned error, or an abrupt
process termination (Go panic). -/
inductive Outcome
  | ok
  | err (e : Err)
  | panicked (e : Err)
deriving DecidableEq

/-- ServiceCertificateBundle: the four optional in-memory PEM blobs.
A Go nil slice is modelled as `none`. -/
structure ServiceCertificateBundle where
  CACertificate : Option Blob := none
  CAKey : Option Blob := none
  HostCertificate : Option Blob := none
  HostKey : Option Blob := none
deriving DecidableEq

/-- CertificateBundle: the five named ServiceCertificateBundle slots. -/
structure CertificateBundle where
  InterNode : ServiceCertificateBundle := {}
  UserAuth : ServiceCertificateBundle := {}
  SQLService : ServiceCertificateBundle := {}
  RPCService : ServiceCertificateBundle := {}
  AdminUIService : ServiceCertificateBundle := {}
deriving DecidableEq

/-- The address fields of base.Config used by this file. -/
structure Config where
  Addr : Str
  AdvertiseAddr : Str
  SQLAddr : Str
  SQLAdvertiseAddr : Str
  HTTPAddr : Str
  HTTPAdvertiseAddr : Str
  SplitListenSQL : Bool
deriving DecidableEq

/-- Modelled from the spec: PathResolver (the certnames Locator, not under
src/) maps the certs directory plus a slot identity to canonical file
paths; the twenty paths are pairwise distinct. -/
def Locator.NodeCertPath : CertPath := (.interNode, .hostCert)

def Locator.NodeKeyPath : CertPath := (.interNode, .hostKey)

def Locator.CACertPath : CertPath := (.interNode, .caCert)

def Locator.CAKeyPath : CertPath := (.interNode, .caKey)

def Locator.ClientNodeCertPath : CertPath := (.userAuth, .hostCert)

def Locator.ClientNodeKeyPath : CertPath := (.userAuth, .hostKey)

def Locator.ClientCACertPath : CertPath := (.userAuth, .caCert)

def Locator.ClientCAKeyPath : CertPath := (.userAuth, .caKey)

def Locator.SQLServiceCertPath : CertPath := (.sqlService, .hostCert)

def Locator.SQLServiceKeyPath : CertPath := (.sqlService, .hostKey)

def Locator.SQLServiceCACertPath : CertPath := (.sqlService, .caCert)

def Locator.SQLServiceCAKeyPath : CertPath := (.sqlService, .caKey)

def Locator.RPCServiceCertPath : CertPath := (.rpcService, .hostCert)

def Locator.RPCServiceKeyPath : CertPath := (.rpcService, .hostKey)

def Locator.RPCServiceCACertPath : CertPath := (.rpcService, .caCert)

def Locator.RPCServiceCAKeyPath : CertPath := (.rpcService, .caKey)

def Locator.UICertPath : CertPath := (.adminUI, .hostCert)

def Locator.UIKeyPath : CertPath := (.adminUI, .hostKey)

def Locator.UICACertPath : CertPath := (.adminUI, .caCert)

def Locator.UICAKeyPath : CertPath := (.adminUI, .caKey)

/-- Certificate lifetimes in hours (the source uses 10 and 5 times 366
days). -/
def defaultCALifetime : Nat := 10 * 366 * 24

def defaultCertLifetime : Nat := 5 * 366 * 24

def serviceNameInterNode : Str := "cockroach-node".data

def serviceNameUserAuth : Str := "cockroach-client".data

def serviceNameSQL : Str := "cockroach-sql".data

def serviceNameRPC : Str := "cockroach-rpc".data

def serviceNameUI : Str := "cockroach-http".data

/-- username.NodeUser, the node's client identity. -/
def nodeUser : Str := "node".data

/-- Modelled from the spec: the CA common-name constant referenced by
createServiceCA is defined outside this file; its value does not affect
the lifecycle logic. -/
def caCommonName : Str := "Cockroach CA".data

/-- Pointwise update of the filesystem map. -/
def updateFS (f : CertPath → FileState) (p : CertPath) (v : FileState) :
    CertPath → FileState :=
  fun q => if q = p then v else f q

/-- loadCertificateFile: os.ReadFile, distinguishing not-found from any
other read failure. -/
def loadCertificateFile (w : World) (p : CertPath) : Except Err Blob :=
  match w.fs p with
  | .absent => .error .notFound
  | .unreadable => .error .permission
  | .present b => .ok b

/-- loadKeyFile: identical wrapper around os.ReadFile. -/
def loadKeyFile (w : World) (p : CertPath) : Except Err Blob :=
  match w.fs p with
  | .absent => .error .notFound
  | .unreadable => .error .permission
  | .present b => .ok b

/-- security.WritePEMToFile: unless overwrite is set, errors if a file
already exists at the path; a successful write is appended to the write
log. -/
def writePEMToFile (w : World) (p : CertPath) (b : Blob) (overwrite : Bool) :
    Except Err World :=
  if overwrite = false ∧ w.fs p ≠ .absent then .error .alreadyExists
  else .ok { fs := updateFS w.fs p (.present b), gen := w.gen,
             writes := w.writes ++ [p] }

/-- writeCertificateFile (mode 0644 is immaterial to the model). -/
def writeCertificateFile (w : World) (p : CertPath) (b : Blob)
    (overwrite : Bool) : Except Err World :=
  writePEMToFile w p b overwrite

/-- writeKeyFile (mode 0600 is immaterial to the model). -/
def writeKeyFile (w : World) (p : CertPath) (b : Blob) (overwrite : Bool) :
    Except Err World :=
  writePEMToFile w p b overwrite

/-- securityassets loader.FileExists: an os.Stat succeeds for present and
for unreadable (permission-protected) files alike. -/
def fileExists (w : World) (p : CertPath) : Bool :=
  match w.fs p with
  | .absent => false
  | _ => true

/-- Modelled from the spec: CAProvider.createCA (security.CreateCACertAndKey,
not under src/) generates a self-signed CA cert/key pair; randomness is
modelled by drawing the fresh tag `w.gen`. -/
def CreateCACertAndKey (w : World) (lifetime : Nat) (cn : Str) :
    Blob × Blob × World :=
  (.caCertGen w.gen lifetime cn, .caKeyGen w.gen,
   { fs := w.fs, gen := w.gen + 1, writes := w.writes })

/-- Modelled from the spec: CAProvider.createLeafCert
(security.CreateServiceCertAndKey, not under src/) signs a fresh leaf
cert/key pair with the supplied CA pair; it errors when the supplied
issuer material is not CA cert/key material. -/
def CreateServiceCertAndKey (w : World) (lifetime : Nat) (cn : Str)
    (hostnames : List Str) (issuerCert issuerKey : Blob) (dualUse : Bool) :
    Except Err (Blob × Blob × World) :=
  match issuerCert, issuerKey with
  | .caCertGen gi _ _, .caKeyGen _ =>
      .ok (.svcCertGen w.gen lifetime cn hostnames dualUse gi,
           .svcKeyGen w.gen,
           { fs := w.fs, gen := w.gen + 1, writes := w.writes })
  | _, _ => .error .createCertFailed

/-- Modelled from the spec: CAProvider.parseCertificates
(security.PEMToCertificates, not under src/) parses a PEM chain and
errors when no certificate block is found (in particular on nil bytes);
the source indexes element 0, so the model returns the first block. -/
def PEMToCertificates : Option Blob → Except Err Blob
  | some (.caCertGen g lt cn) => .ok (.caCertGen g lt cn)
  | some (.caKeyGen g) => .ok (.caKeyGen g)
  | some (.svcCertGen g lt cn hs du gi) => .ok (.svcCertGen g lt cn hs du gi)
  | some (.svcKeyGen g) => .ok (.svcKeyGen g)
  | some (.raw _) => .error .decodePEMCACert
  | none => .error .decodePEMCACert

/-- pem.Decode together with the rest-must-be-empty check of the source:
succeeds exactly on a single generated PEM block, fails on nil or raw
bytes. -/
def pemDecodeBlock : Option Blob → Option Blob
  | some (.caCertGen g lt cn) => some (.caCertGen g lt cn)
  | some (.caKeyGen g) => some (.caKeyGen g)
  | some (.svcCertGen g lt cn hs du gi) => some (.svcCertGen g lt cn hs du gi)
  | some (.svcKeyGen g) => some (.svcKeyGen g)
  | some (.raw _) => none
  | none => none

/-- ServiceCertificateBundle.loadCACertAndKey: loads the CA cert, then the
CA key; a failed os.ReadFile leaves the corresponding field nil. -/
def ServiceCertificateBundle.loadCACertAndKey
    (sb : ServiceCertificateBundle) (w : World) (certPath keyPath : CertPath) :
    ServiceCertificateBundle × Option Err :=
  match loadCertificateFile w certPath with
  | .error e => ({ sb with CACertificate := none }, some e)
  | .ok c =>
    match loadKeyFile w keyPath with
    | .error e => ({ sb with CACertificate := some c, CAKey := none }, some e)
    | .ok k => ({ sb with CACertificate := some c, CAKey := some k }, none)

/-- loadCACertAndKeyIfExists: swallows a not-found error from either load
(the oserror.IsNotExist test on the returned error). -/
def ServiceCertificateBundle.loadCACertAndKeyIfExists
    (sb : ServiceCertificateBundle) (w : World) (certPath keyPath : CertPath) :
    ServiceCertificateBundle × Option Err :=
  match sb.loadCACertAndKey w certPath keyPath with
  | (sb', some .notFound) => (sb', none)
  | (sb', e) => (sb', e)

/-- createServiceCA: generates the CA pair and persists both files with
overwrite disallowed. -/
def ServiceCertificateBundle.createServiceCA
    (sb : ServiceCertificateBundle) (w : World) (caCertPath caKeyPath : CertPath)
    (initLifespan : Nat) : ServiceCertificateBundle × World × Option Err :=
  match CreateCACertAndKey w initLifespan caCommonName with
  | (caCert, caKey, w1) =>
    match writeCertificateFile w1 caCertPath caCert false with
    | .error e =>
        ({ sb with CACertificate := some caCert, CAKey := some caKey }, w1, some e)
    | .ok w2 =>
      match writeKeyFile w2 caKeyPath caKey false with
      | .error e =>
          ({ sb with CACertificate := some caCert, CAKey := some caKey }, w2, some e)
      | .ok w3 =>
          ({ sb with CACertificate := some caCert, CAKey := some caKey }, w3, none)

/-- Tail of loadOrCreateServiceCertificates after the CA phase: decode
the in-memory CA material, issue the service cert/key pair, persist both
with overwrite disallowed.  This is the straight-line tail of the source
function, factored out so that the three CA-phase branches that fall into
it can share lemmas; loadOrCreateServiceCertificates composes it exactly
as the source does. -/
def ServiceCertificateBundle.issueFromLoadedCA
    (sb1 : ServiceCertificateBundle) (w1 : World)
    (serviceCertPath serviceKeyPath : CertPath)
    (serviceCertLifespan : Nat) (commonName : Str) (hostnames : List Str)
    (serviceCertIsAlsoValidAsClient : Bool) :
    ServiceCertificateBundle × World × Option Err :=
  match PEMToCertificates sb1.CACertificate with
  | .error _ => (sb1, w1, some .decodePEMCACert)
  | .ok caCert0 =>
    match pemDecodeBlock sb1.CAKey with
    | none => (sb1, w1, some .decodePEMCAKey)
    | some caKey0 =>
      match CreateServiceCertAndKey w1 serviceCertLifespan commonName
          hostnames caCert0 caKey0 serviceCertIsAlsoValidAsClient with
      | .error e => (sb1, w1, some (.createServiceCertFailed e))
      | .ok (hostCert, hostKey, w2) =>
        match writeCertificateFile w2 serviceCertPath hostCert false with
        | .error e =>
            ({ sb1 with
               HostCertificate := some hostCert,
               HostKey := some hostKey }, w2, some e)
        | .ok w3 =>
          match writeKeyFile w3 serviceKeyPath hostKey false with
          | .error e =>
              ({ sb1 with
                 HostCertificate := some hostCert,
                 HostKey := some hostKey }, w3, some e)
          | .ok w4 =>
              ({ sb1 with
                 HostCertificate := some hostCert,
                 HostKey := some hostKey }, w4, none)

/-- loadOrCreateServiceCertificates, the central cascade, mirroring the
source branch for branch.  In particular: a host-cert load failure of any
kind falls through to the creation path (the source comment notes err is
not handled there), and a CA-cert load failure that is neither nil nor
not-found falls through with a nil in-memory CA certificate (the source
comment notes the missing else case). -/
def ServiceCertificateBundle.loadOrCreateServiceCertificates
    (sb : ServiceCertificateBundle) (w : World)
    (serviceCertPath serviceKeyPath caCertPath caKeyPath : CertPath)
    (serviceCertLifespan caCertLifespan : Nat) (commonName : Str)
    (hostnames : List Str) (serviceCertIsAlsoValidAsClient : Bool) :
    ServiceCertificateBundle × World × Option Err :=
  match loadCertificateFile w serviceCertPath with
  | .ok c =>
    match loadKeyFile w serviceKeyPath with
    | .error .notFound =>
        ({ sb with HostCertificate := some c, HostKey := none }, w,
         some .hostKeyMissing)
    | .error e =>
        ({ sb with HostCertificate := some c, HostKey := none }, w,
         some (.hostKeyLoadFailed e))
    | .ok k =>
        ({ sb with HostCertificate := some c, HostKey := some k }, w, none)
  | .error _ =>
    match
      (match loadCertificateFile w caCertPath with
       | .ok c =>
         match loadKeyFile w caKeyPath with
         | .error e =>
             (({ sb with
                 HostCertificate := none, CACertificate := some c,
                 CAKey := none } : ServiceCertificateBundle), w,
              some (Err.caKeyLoadFailed e))
         | .ok k =>
             (({ sb with
                 HostCertificate := none, CACertificate := some c,
                 CAKey := some k } : ServiceCertificateBundle), w, none)
       | .error .notFound =>
         match ServiceCertificateBundle.createServiceCA
             { sb with HostCertificate := none } w caCertPath caKeyPath
             caCertLifespan with
         | (sb', w', some e) => (sb', w', some (Err.createCAFailed e))
         | (sb', w', none) => (sb', w', none)
       | .error _ =>
           (({ sb with HostCertificate := none, CACertificate := none } :
              ServiceCertificateBundle), w, none)) with
    | (sb1, w1, some e) => (sb1, w1, some e)
    | (sb1, w1, none) =>
        sb1.issueFromLoadedCA w1 serviceCertPath serviceKeyPath
          serviceCertLifespan commonName hostnames
          serviceCertIsAlsoValidAsClient

/-- writeCAOrFail: writes whichever CA halves are present in memory,
overwrite disallowed; missing fields are skipped silently.  (For PEM
blobs the decode-then-encode of the source is the identity, so the blob
itself is written.) -/
def ServiceCertificateBundle.writeCAOrFail
    (sb : ServiceCertificateBundle) (w : World) (certPath keyPath : CertPath) :
    World × Option Err :=
  match sb.CACertificate with
  | some c =>
    match writeCertificateFile w certPath c false with
    | .error e => (w, some e)
    | .ok w1 =>
      match sb.CAKey with
      | some k =>
        match writeKeyFile w1 keyPath k false with
        | .error e => (w1, some e)
        | .ok w2 => (w2, none)
      | none => (w1, none)
  | none =>
    match sb.CAKey with
    | some k =>
      match writeKeyFile w keyPath k false with
      | .error e => (w, some e)
      | .ok w1 => (w1, none)
    | none => (w, none)

/-- rotateServiceCert: regenerates the leaf pair from the in-memory CA and
overwrites the existing files; it errors (before writing) when the file
to be overwritten does not exist.  The source stats certPath before both
writes. -/
def ServiceCertificateBundle.rotateServiceCert
    (sb : ServiceCertificateBundle) (w : World) (certPath keyPath : CertPath)
    (serviceCertLifespan : Nat) (commonName serviceString : Str)
    (hostnames : List Str) (serviceCertIsAlsoValidAsClient : Bool) :
    World × Option Err :=
  match PEMToCertificates sb.CACertificate with
  | .error _ => (w, some .decodePEMCACert)
  | .ok caCert0 =>
    match pemDecodeBlock sb.CAKey with
    | none => (w, some .decodePEMCAKey)
    | some caKey0 =>
      match CreateServiceCertAndKey w serviceCertLifespan commonName hostnames
          caCert0 caKey0 serviceCertIsAlsoValidAsClient with
      | .error e => (w, some (.rotateOpFailed e))
      | .ok (certPEM, keyPEM, w1) =>
        if fileExists w1 certPath then
          match writeCertificateFile w1 certPath certPEM true with
          | .error e => (w1, some (.rotateOpFailed e))
          | .ok w2 =>
            if fileExists w2 certPath then
              match writeKeyFile w2 keyPath keyPEM true with
              | .error e => (w2, some (.rotateOpFailed e))
              | .ok w3 => (w3, none)
            else (w2, some (.rotateOpFailed .notFound))
        else (w1, some (.rotateOpFailed .notFound))

/-- Modelled from the spec: netutil addr.SplitHostPort (not under src/)
splits a "host:port" string, filling in a default port when none is
present; an input that is not a well-formed host-port form (e.g. more
than one colon without IPv6 bracketing, which the model omits) is a
malformed address. -/
def splitHostPort (a : Str) : Except Err Str :=
  if a.countP (fun ch => ch == ':') ≤ 1 then
    .ok (a.takeWhile (fun ch => !(ch == ':')))
  else .error .invalidAddress

/-- Result of extractHosts: either the hostname list or an abrupt
termination (the source panics on a split error). -/
inductive ExtractRes
  | ok (hosts : List Str)
  | panicked (e : Err)
deriving DecidableEq

/-- Loop of extractHosts: first-seen-order deduplicating accumulation. -/
def extractHostsLoop (addrs : List Str) (res : List Str) : ExtractRes :=
  match addrs with
  | [] => .ok res
  | a :: rest =>
    match splitHostPort a with
    | .error e => .panicked e
    | .ok hostname =>
        extractHostsLoop rest (if hostname ∈ res then res else res ++ [hostname])

/-- extractHosts: hostnames of the given addresses, deduplicated in
first-seen order; panics (terminates the process) on a malformed
address. -/
def extractHosts (addrs : List Str) : ExtractRes :=
  extractHostsLoop addrs []

/-- InitializeFromConfig (bootstrap): the AlreadyInitialized guard on the
InterNode host certificate, address extraction, then the five
load-or-create cascades in fixed order.  EnsureCertsDirectory is a no-op
in the model. -/
def CertificateBundle.InitializeFromConfig
    (b : CertificateBundle) (w : World) (c : Config) :
    CertificateBundle × World × Outcome :=
  if fileExists w Locator.NodeCertPath then (b, w, .err .alreadyInitialized)
  else
    match extractHosts [c.Addr, c.AdvertiseAddr] with
    | .panicked e => (b, w, .panicked e)
    | .ok rpcAddrs =>
    match
      (if c.SplitListenSQL then extractHosts [c.SQLAddr, c.SQLAdvertiseAddr]
       else .ok rpcAddrs) with
    | .panicked e => (b, w, .panicked e)
    | .ok sqlAddrs =>
    match extractHosts [c.HTTPAddr, c.HTTPAdvertiseAddr] with
    | .panicked e => (b, w, .panicked e)
    | .ok httpAddrs =>
    match b.InterNode.loadOrCreateServiceCertificates w
        Locator.NodeCertPath Locator.NodeKeyPath
        Locator.CACertPath Locator.CAKeyPath
        defaultCertLifetime defaultCALifetime nodeUser rpcAddrs true with
    | (sbIN, w1, some e) =>
        ({ b with InterNode := sbIN }, w1, .err (.slotInitFailed .interNode e))
    | (sbIN, w1, none) =>
    match b.UserAuth.loadOrCreateServiceCertificates w1
        Locator.ClientNodeCertPath Locator.ClientNodeKeyPath
        Locator.ClientCACertPath Locator.ClientCAKeyPath
        defaultCertLifetime defaultCALifetime nodeUser [] true with
    | (sbUA, w2, some e) =>
        ({ b with InterNode := sbIN, UserAuth := sbUA }, w2,
         .err (.slotInitFailed .userAuth e))
    | (sbUA, w2, none) =>
    match b.SQLService.loadOrCreateServiceCertificates w2
        Locator.SQLServiceCertPath Locator.SQLServiceKeyPath
        Locator.SQLServiceCACertPath Locator.SQLServiceCAKeyPath
        defaultCertLifetime defaultCALifetime nodeUser sqlAddrs false with
    | (sbSQL, w3, some e) =>
        ({ b with InterNode := sbIN, UserAuth := sbUA, SQLService := sbSQL },
         w3, .err (.slotInitFailed .sqlService e))
    | (sbSQL, w3, none) =>
    match b.RPCService.loadOrCreateServiceCertificates w3
        Locator.RPCServiceCertPath Locator.RPCServiceKeyPath
        Locator.RPCServiceCACertPath Locator.RPCServiceCAKeyPath
        defaultCertLifetime defaultCALifetime nodeUser rpcAddrs false with
    | (sbRPC, w4, some e) =>
        ({ b with
           InterNode := sbIN, UserAuth := sbUA, SQLService := sbSQL,
           RPCService := sbRPC }, w4, .err (.slotInitFailed .rpcService e))
    | (sbRPC, w4, none) =>
    match b.AdminUIService.loadOrCreateServiceCertificates w4
        Locator.UICertPath Locator.UIKeyPath
        Locator.UICACertPath Locator.UICAKeyPath
        defaultCertLifetime defaultCALifetime (httpAddrs.headD [])
        httpAddrs false with
    | (sbUI, w5, some e) =>
        ({ b with
           InterNode := sbIN, UserAuth := sbUA, SQLService := sbSQL,
           RPCService := sbRPC, AdminUIService := sbUI }, w5,
         .err (.slotInitFailed .adminUI e))
    | (sbUI, w5, none) =>
        ({ b with
           InterNode := sbIN, UserAuth := sbUA, SQLService := sbSQL,
           RPCService := sbRPC, AdminUIService := sbUI }, w5, .ok)

/-- InitializeNodeFromBundle (bundle receive): the same guard, then the
five CA writes with overwrite disallowed, then delegation to
InitializeFromConfig. -/
def CertificateBundle.InitializeNodeFromBundle
    (b : CertificateBundle) (w : World) (c : Config) :
    CertificateBundle × World × Outcome :=
  if fileExists w Locator.NodeCertPath then (b, w, .err .alreadyInitialized)
  else
    match b.InterNode.writeCAOrFail w Locator.CACertPath Locator.CAKeyPath with
    | (w1, some e) => (b, w1, .err (.writeCAFailed .interNode e))
    | (w1, none) =>
    match b.UserAuth.writeCAOrFail w1 Locator.ClientCACertPath
        Locator.ClientCAKeyPath with
    | (w2, some e) => (b, w2, .err (.writeCAFailed .userAuth e))
    | (w2, none) =>
    match b.SQLService.writeCAOrFail w2 Locator.SQLServiceCACertPath
        Locator.SQLServiceCAKeyPath with
    | (w3, some e) => (b, w3, .err (.writeCAFailed .sqlService e))
    | (w3, none) =>
    match b.RPCService.writeCAOrFail w3 Locator.RPCServiceCACertPath
        Locator.RPCServiceCAKeyPath with
    | (w4, some e) => (b, w4, .err (.writeCAFailed .rpcService e))
    | (w4, none) =>
    match b.AdminUIService.writeCAOrFail w4 Locator.UICACertPath
        Locator.UICAKeyPath with
    | (w5, some e) => (b, w5, .err (.writeCAFailed .adminUI e))
    | (w5, none) =>
    match b.InitializeFromConfig w5 c with
    | (b', w6, .ok) => (b', w6, .ok)
    | (b', w6, .err e) => (b', w6, .err (.initAfterBundleFailed e))
    | (b', w6, .panicked e) => (b', w6, .panicked e)

/-- collectLocalCABundle: best-effort read of the five CA halves; a
missing CA certificate is skipped, any other read error aborts. -/
def collectLocalCABundle (w : World) : CertificateBundle × Option Err :=
  match ServiceCertificateBundle.loadCACertAndKeyIfExists {} w
      Locator.CACertPath Locator.CAKeyPath with
  | (sbIN, some e) =>
      ({ InterNode := sbIN }, some (.collectSlotFailed .interNode e))
  | (sbIN, none) =>
  match ServiceCertificateBundle.loadCACertAndKeyIfExists {} w
      Locator.ClientCACertPath Locator.ClientCAKeyPath with
  | (sbUA, some e) =>
      ({ InterNode := sbIN, UserAuth := sbUA },
       some (.collectSlotFailed .userAuth e))
  | (sbUA, none) =>
  match ServiceCertificateBundle.loadCACertAndKeyIfExists {} w
      Locator.SQLServiceCACertPath Locator.SQLServiceCAKeyPath with
  | (sbSQL, some e) =>
      ({ InterNode := sbIN, UserAuth := sbUA, SQLService := sbSQL },
       some (.collectSlotFailed .sqlService e))
  | (sbSQL, none) =>
  match ServiceCertificateBundle.loadCACertAndKeyIfExists {} w
      Locator.RPCServiceCACertPath Locator.RPCServiceCAKeyPath with
  | (sbRPC, some e) =>
      ({ InterNode := sbIN, UserAuth := sbUA, SQLService := sbSQL
         , RPCService := sbRPC }, some (.collectSlotFailed .rpcService e))
  | (sbRPC, none) =>
  match ServiceCertificateBundle.loadCACertAndKeyIfExists {} w
      Locator.UICACertPath Locator.UICAKeyPath with
  | (sbUI, some e) =>
      ({ InterNode := sbIN, UserAuth := sbUA, SQLService := sbSQL,
         RPCService := sbRPC, AdminUIService := sbUI },
       some (.collectSlotFailed .adminUI e))
  | (sbUI, none) =>
      ({ InterNode := sbIN, UserAuth := sbUA, SQLService := sbSQL,
         RPCService := sbRPC, AdminUIService := sbUI }, none)

/-- rotateGeneratedCerts: collect the local CAs, then regenerate the leaf
pair of every slot whose in-memory CA certificate is non-nil, stopping at
the first failure. -/
def rotateGeneratedCerts (w : World) (c : Config) : World × Outcome :=
  match collectLocalCABundle w with
  | (_, some e) => (w, .err (.collectFailed e))
  | (b, none) =>
  match extractHosts [c.Addr, c.AdvertiseAddr] with
  | .panicked e => (w, .panicked e)
  | .ok rpcAddrs =>
  match
    (if c.SplitListenSQL then extractHosts [c.SQLAddr, c.SQLAdvertiseAddr]
     else .ok rpcAddrs) with
  | .panicked e => (w, .panicked e)
  | .ok sqlAddrs =>
  match extractHosts [c.HTTPAddr, c.HTTPAdvertiseAddr] with
  | .panicked e => (w, .panicked e)
  | .ok httpAddrs =>
  match
    (if b.InterNode.CACertificate = none then ((w, none) : World × Option Err)
     else b.InterNode.rotateServiceCert w Locator.NodeCertPath
       Locator.NodeKeyPath defaultCertLifetime nodeUser serviceNameInterNode
       rpcAddrs true) with
  | (w1, some e) => (w1, .err (.rotateSlotFailed .interNode e))
  | (w1, none) =>
  match
    (if b.UserAuth.CACertificate = none then ((w1, none) : World × Option Err)
     else b.UserAuth.rotateServiceCert w1 Locator.ClientNodeCertPath
       Locator.ClientNodeKeyPath defaultCertLifetime nodeUser
       serviceNameUserAuth [] true) with
  | (w2, some e) => (w2, .err (.rotateSlotFailed .userAuth e))
  | (w2, none) =>
  match
    (if b.SQLService.CACertificate = none then ((w2, none) : World × Option Err)
     else b.SQLService.rotateServiceCert w2 Locator.SQLServiceCertPath
       Locator.SQLServiceKeyPath defaultCertLifetime nodeUser serviceNameSQL
       sqlAddrs false) with
  | (w3, some e) => (w3, .err (.rotateSlotFailed .sqlService e))
  | (w3, none) =>
  match
    (if b.RPCService.CACertificate = none then ((w3, none) : World × Option Err)
     else b.RPCService.rotateServiceCert w3 Locator.RPCServiceCertPath
       Locator.RPCServiceKeyPath defaultCertLifetime nodeUser serviceNameRPC
       rpcAddrs false) with
  | (w4, some e) => (w4, .err (.rotateSlotFailed .rpcService e))
  | (w4, none) =>
  match
    (if b.AdminUIService.CACertificate = none then ((w4, none) : World × Option Err)
     else b.AdminUIService.rotateServiceCert w4 Locator.UICertPath
       Locator.UIKeyPath defaultCertLifetime (httpAddrs.headD [])
       serviceNameUI httpAddrs false) with
  | (w5, some e) => (w5, .err (.rotateSlotFailed .adminUI e))
  | (w5, none) => (w5, .ok)

/-- Follows the spec's words: an ordered, deduplicated (first-seen order)
accumulation of a list, used to compare extractHosts against the spec's
description of extractHostnames. -/
def dedupFirstSeen (l : List Str) (acc : List Str) : List Str :=
  match l with
  | [] => acc
  | h :: t => dedupFirstSeen t (if h ∈ acc then acc else acc ++ [h])

/-- Port stripping per the spec: the part of the address before the
colon. -/
def stripPort (a : Str) : Str :=
  a.takeWhile (fun ch => !(ch == ':'))

/-- A well-formed "host:port" (or bare host) address: at most one
colon. -/
def wellFormedAddr (a : Str) : Prop :=
  a.countP (fun ch => ch == ':') ≤ 1

instance (a : Str) : Decidable (wellFormedAddr a) := by
  unfold wellFormedAddr
  infer_instance

/-- All six address fields of a Config are well-formed. -/
def Config.wellFormed (c : Config) : Prop :=
  wellFormedAddr c.Addr ∧ wellFormedAddr c.AdvertiseAddr ∧
  wellFormedAddr c.SQLAddr ∧ wellFormedAddr c.SQLAdvertiseAddr ∧
  wellFormedAddr c.HTTPAddr ∧ wellFormedAddr c.HTTPAdvertiseAddr

/-- Spec error taxonomy: the InconsistentPair class (a persisted
certificate whose matching key cannot be loaded). -/
def Err.isInconsistentPair : Err → Bool
  | .hostKeyMissing => true
  | .hostKeyLoadFailed _ => true
  | .caKeyLoadFailed _ => true
  | _ => false

/-- Lifts the InconsistentPair classification to an optional error. -/
def optErrIsInconsistentPair : Option Err → Bool
  | some e => e.isInconsistentPair
  | none => false

/-- Classifies a workflow outcome as a failure of a CA-write step of the
bundle receive. -/
def Outcome.isCAWriteStepFailure : Outcome → Bool
  | .err (.writeCAFailed _ _) => true
  | _ => false

/-- Freshness of a blob relative to the generation counter: generated
material carries a tag strictly below the counter. -/
def Blob.freshBefore : Blob → Nat → Prop
  | .caCertGen g _ _, n => g < n
  | .caKeyGen g, n => g < n
  | .svcCertGen g _ _ _ _ _, n => g < n
  | .svcKeyGen g, n => g < n
  | .raw _, _ => True

/-- The world invariant encoding randomness of key generation: every blob
on disk was generated before the current counter, so freshly generated
material differs from everything on disk. -/
def FreshInv (w : World) : Prop :=
  ∀ p b, w.fs p = .present b → b.freshBefore w.gen

/-- The empty certs directory. -/
def emptyWorld : World :=
  { fs := fun _ => .absent, gen := 0, writes := [] }

/-- A concrete well-formed configuration. -/
def cfg0 : Config :=
  { Addr := "n1:26257".data, AdvertiseAddr := "n1:26257".data,
    SQLAddr := "n1:5432".data, SQLAdvertiseAddr := "n1:5432".data,
    HTTPAddr := "n1:8080".data, HTTPAdvertiseAddr := "n1:8080".data,
    SplitListenSQL := false }

/-- A directory whose only file is an InterNode host certificate. -/
def worldNodeCertPresent : World :=
  { fs := updateFS (fun _ => .absent) Locator.NodeCertPath (.present (.raw [7])),
    gen := 0, writes := [] }

/-- A directory with an InterNode host certificate but no host key. -/
def worldC3 : World := worldNodeCertPresent

/-- A directory where the InterNode host certificate is absent and the
InterNode CA certificate exists but cannot be read (permissions). -/
def worldC5 : World :=
  { fs := updateFS (fun _ => .absent) Locator.CACertPath .unreadable,
    gen := 0, writes := [] }

/-- A supplied CA pair, as carried in a transfer bundle, tagged n.  Tags
of supplied bundles start at 100 while a locally running generator counts
up from zero, so a small tag certifies locally created material. -/
def suppliedCA (n : Nat) : ServiceCertificateBundle :=
  { CACertificate := some (.caCertGen n defaultCALifetime caCommonName),
    CAKey := some (.caKeyGen n) }

/-- A transfer bundle supplying CA pairs for all five slots. -/
def bundleAll : CertificateBundle :=
  { InterNode := suppliedCA 100, UserAuth := suppliedCA 101,
    SQLService := suppliedCA 102, RPCService := suppliedCA 103,
    AdminUIService := suppliedCA 104 }

/-- A transfer bundle whose slot s carries nil CA fields while every other
slot carries a supplied CA pair. -/
def bundleWithNilSlot (s : Slot) : CertificateBundle :=
  { InterNode := if s = .interNode then {} else suppliedCA 100,
    UserAuth := if s = .userAuth then {} else suppliedCA 101,
    SQLService := if s = .sqlService then {} else suppliedCA 102,
    RPCService := if s = .rpcService then {} else suppliedCA 103,
    AdminUIService := if s = .adminUI then {} else suppliedCA 104 }

/-- True when the file holds a CA certificate generated by a counter that
stayed below the cutoff (i.e. brand-new local material rather than
supplied bundle material). -/
def isLocallyCreatedCA (cutoff : Nat) : FileState → Bool
  | .present (.caCertGen g _ _) => g < cutoff
  | _ => false

/-! Helper lemmas about the primitive store operations. -/

theorem updateFS_self (f : CertPath → FileState) (p : CertPath) (v : FileState) :
    updateFS f p v p = v := by
  simp [updateFS]

theorem updateFS_ne (f : CertPath → FileState) (p q : CertPath) (v : FileState)
    (h : q ≠ p) : updateFS f p v q = f q := by
  simp [updateFS, h]

theorem writePEMToFile_ok_effects {w : World} {p : CertPath} {b : Blob}
    {ov : Bool} {w' : World} (h : writePEMToFile w p b ov = .ok w') :
    w'.fs = updateFS w.fs p (.present b) ∧ w'.gen = w.gen ∧
      w'.writes = w.writes ++ [p] := by
  unfold writePEMToFile at h
  split at h
  · simp at h
  · simp only [Except.ok.injEq] at h
    subst h
    exact ⟨rfl, rfl, rfl⟩

theorem writePEMToFile_absent {w : World} {p : CertPath} {b : Blob} {ov : Bool}
    (h : w.fs p = .absent) :
    writePEMToFile w p b ov =
      .ok { fs := updateFS w.fs p (.present b), gen := w.gen,
            writes := w.writes ++ [p] } := by
  unfold writePEMToFile
  rw [if_neg]
  simp [h]

theorem Blob.freshBefore_mono {b : Blob} {m n : Nat} (h : b.freshBefore m)
    (hmn : m ≤ n) : b.freshBefore n := by
  cases b <;> simp [Blob.freshBefore] at h ⊢ <;> omega

/-! Characterization of createServiceCA. -/

theorem createServiceCA_absent {sb : ServiceCertificateBundle} {w : World}
    {cap kap : CertPath} {cl : Nat}
    (hcap : w.fs cap = .absent) (hkap : w.fs kap = .absent) (hne : kap ≠ cap) :
    sb.createServiceCA w cap kap cl =
      ({ sb with CACertificate := some (.caCertGen w.gen cl caCommonName),
                 CAKey := some (.caKeyGen w.gen) },
       { fs := updateFS (updateFS w.fs cap
                 (.present (.caCertGen w.gen cl caCommonName))) kap
                 (.present (.caKeyGen w.gen)),
         gen := w.gen + 1, writes := w.writes ++ [cap, kap] },
       none) := by
  simp [ServiceCertificateBundle.createServiceCA, CreateCACertAndKey,
    writeCertificateFile, writeKeyFile, writePEMToFile, hcap, hkap,
    updateFS_ne _ _ _ _ hne]

/-- Every branch of createServiceCA only writes the two CA paths, never
decreases the counter and preserves the freshness invariant. -/
theorem createServiceCA_preserves {sb : ServiceCertificateBundle} {w : World}
    {cap kap : CertPath} {cl : Nat} {sb' : ServiceCertificateBundle}
    {w' : World} {r : Option Err}
    (h : sb.createServiceCA w cap kap cl = (sb', w', r)) :
    (∀ q, q ≠ cap → q ≠ kap → w'.fs q = w.fs q) ∧ w.gen ≤ w'.gen ∧
      (FreshInv w → FreshInv w') := by
  simp only [ServiceCertificateBundle.createServiceCA, CreateCACertAndKey] at h
  split at h
  · -- write of the CA certificate failed
    simp only [Prod.mk.injEq] at h
    obtain ⟨-, hw, -⟩ := h
    subst hw
    refine ⟨fun q _ _ => rfl, Nat.le_succ _, fun hf p b hp => ?_⟩
    exact Blob.freshBefore_mono (hf p b hp) (Nat.le_succ _)
  · next w2 hw2 =>
    obtain ⟨hfs2, hg2, -⟩ := writePEMToFile_ok_effects hw2
    split at h
    · -- write of the CA key failed after the CA certificate was written
      simp only [Prod.mk.injEq] at h
      obtain ⟨-, hw, -⟩ := h
      subst hw
      refine ⟨fun q hq1 hq2 => ?_, ?_, fun hf p b hp => ?_⟩
      · rw [hfs2, updateFS_ne _ _ _ _ hq1]
      · simp only [hg2]; exact Nat.le_succ _
      · rw [hfs2] at hp
        by_cases hpc : p = cap
        · subst hpc
          rw [updateFS_self] at hp
          cases hp
          simp [Blob.freshBefore, hg2]
        · rw [updateFS_ne _ _ _ _ hpc] at hp
          exact Blob.freshBefore_mono (hf p b hp) (by simp [hg2])
    · next w3 hw3 =>
      obtain ⟨hfs3, hg3, -⟩ := writePEMToFile_ok_effects hw3
      simp only [Prod.mk.injEq] at h
      obtain ⟨-, hw, -⟩ := h
      subst hw
      refine ⟨fun q hq1 hq2 => ?_, ?_, fun hf p b hp => ?_⟩
      · rw [hfs3, updateFS_ne _ _ _ _ hq2, hfs2, updateFS_ne _ _ _ _ hq1]
      · simp only [hg3, hg2]; exact Nat.le_succ _
      · rw [hfs3] at hp
        by_cases hpk : p = kap
        · subst hpk
          rw [updateFS_self] at hp
          cases hp
          simp [Blob.freshBefore, hg3, hg2]
        · rw [updateFS_ne _ _ _ _ hpk, hfs2] at hp
          by_cases hpc : p = cap
          · subst hpc
            rw [updateFS_self] at hp
            cases hp
            simp [Blob.freshBefore, hg3, hg2]
          · rw [updateFS_ne _ _ _ _ hpc] at hp
            exact Blob.freshBefore_mono (hf p b hp) (by simp [hg3, hg2])

/-! Characterization of the issue tail and the cascade. -/

theorem loadCertificateFile_ok {w : World} {p : CertPath} {b : Blob}
    (h : loadCertificateFile w p = .ok b) : w.fs p = .present b := by
  unfold loadCertificateFile at h
  split at h <;> simp_all

theorem CreateServiceCertAndKey_ok {w : World} {sl : Nat} {cn : Str}
    {hs : List Str} {ic ik : Blob} {du : Bool} {hc hk : Blob} {w' : World}
    (h : CreateServiceCertAndKey w sl cn hs ic ik du = .ok (hc, hk, w')) :
    (∃ gi, hc = .svcCertGen w.gen sl cn hs du gi) ∧ hk = .svcKeyGen w.gen ∧
      w'.fs = w.fs ∧ w'.gen = w.gen + 1 ∧ w'.writes = w.writes := by
  unfold CreateServiceCertAndKey at h
  split at h
  · next gi _ _ _ =>
    simp only [Except.ok.injEq, Prod.mk.injEq] at h
    obtain ⟨h1, h2, h3⟩ := h
    subst h3
    exact ⟨⟨gi, h1.symm⟩, h2.symm, rfl, rfl, rfl⟩
  · simp at h

theorem issueFromLoadedCA_eval {sb1 : ServiceCertificateBundle} {w1 : World}
    {scp skp : CertPath} {sl : Nat} {cn : Str} {hs : List Str} {du : Bool}
    {gi glt : Nat} {gcn : Str} {gk : Nat}
    (hca : sb1.CACertificate = some (.caCertGen gi glt gcn))
    (hkey : sb1.CAKey = some (.caKeyGen gk))
    (hscp : w1.fs scp = .absent) (hskp : w1.fs skp = .absent)
    (hne : skp ≠ scp) :
    sb1.issueFromLoadedCA w1 scp skp sl cn hs du =
      ({ sb1 with
         HostCertificate := some (.svcCertGen w1.gen sl cn hs du gi),
         HostKey := some (.svcKeyGen w1.gen) },
       { fs := updateFS (updateFS w1.fs scp
                 (.present (.svcCertGen w1.gen sl cn hs du gi))) skp
                 (.present (.svcKeyGen w1.gen)),
         gen := w1.gen + 1, writes := w1.writes ++ [scp, skp] },
       none) := by
  simp [ServiceCertificateBundle.issueFromLoadedCA, hca, hkey,
    PEMToCertificates, pemDecodeBlock, CreateServiceCertAndKey,
    writeCertificateFile, writeKeyFile, writePEMToFile, hscp, hskp,
    updateFS_ne _ _ _ _ hne]

theorem issueFromLoadedCA_preserves {sb1 : ServiceCertificateBundle}
    {w1 : World} {scp skp : CertPath} {sl : Nat} {cn : Str} {hs : List Str}
    {du : Bool} {sb' : ServiceCertificateBundle} {w' : World} {r : Option Err}
    (h : sb1.issueFromLoadedCA w1 scp skp sl cn hs du = (sb', w', r)) :
    (∀ q, q ≠ scp → q ≠ skp → w'.fs q = w1.fs q) ∧ w1.gen ≤ w'.gen ∧
      (FreshInv w1 → FreshInv w') := by
  unfold ServiceCertificateBundle.issueFromLoadedCA at h
  split at h
  · simp only [Prod.mk.injEq] at h
    obtain ⟨-, hw, -⟩ := h
    subst hw
    exact ⟨fun q _ _ => rfl, le_refl _, id⟩
  · split at h
    · simp only [Prod.mk.injEq] at h
      obtain ⟨-, hw, -⟩ := h
      subst hw
      exact ⟨fun q _ _ => rfl, le_refl _, id⟩
    · split at h
      · simp only [Prod.mk.injEq] at h
        obtain ⟨-, hw, -⟩ := h
        subst hw
        exact ⟨fun q _ _ => rfl, le_refl _, id⟩
      · next hostCert hostKey w2 hck =>
        obtain ⟨⟨gi, hhc⟩, hhk, hfs2, hg2, -⟩ := CreateServiceCertAndKey_ok hck
        split at h
        · -- the host certificate write failed
          simp only [Prod.mk.injEq] at h
          obtain ⟨-, hw, -⟩ := h
          subst hw
          refine ⟨fun q _ _ => by rw [hfs2], ?_, fun hf p b hp => ?_⟩
          · rw [hg2]; exact Nat.le_succ _
          · rw [hfs2] at hp
            exact Blob.freshBefore_mono (hf p b hp) (by rw [hg2]; exact Nat.le_succ _)
        · next w3 hw3 =>
          obtain ⟨hfs3, hg3, -⟩ := writePEMToFile_ok_effects hw3
          split at h
          · -- the host key write failed
            simp only [Prod.mk.injEq] at h
            obtain ⟨-, hw, -⟩ := h
            subst hw
            refine ⟨fun q hq1 _ => ?_, ?_, fun hf p b hp => ?_⟩
            · rw [hfs3, updateFS_ne _ _ _ _ hq1, hfs2]
            · rw [hg3, hg2]; exact Nat.le_succ _
            · rw [hfs3] at hp
              by_cases hpc : p = scp
              · subst hpc
                rw [updateFS_self] at hp
                cases hp
                subst hhc
                simp [Blob.freshBefore, hg3, hg2]
              · rw [updateFS_ne _ _ _ _ hpc, hfs2] at hp
                exact Blob.freshBefore_mono (hf p b hp)
                  (by rw [hg3, hg2]; exact Nat.le_succ _)
          · next w4 hw4 =>
            obtain ⟨hfs4, hg4, -⟩ := writePEMToFile_ok_effects hw4
            simp only [Prod.mk.injEq] at h
            obtain ⟨-, hw, -⟩ := h
            subst hw
            refine ⟨fun q hq1 hq2 => ?_, ?_, fun hf p b hp => ?_⟩
            · rw [hfs4, updateFS_ne _ _ _ _ hq2, hfs3,
                updateFS_ne _ _ _ _ hq1, hfs2]
            · rw [hg4, hg3, hg2]; exact Nat.le_succ _
            · rw [hfs4] at hp
              by_cases hpk : p = skp
              · subst hpk
                rw [updateFS_self] at hp
                cases hp
                subst hhk
                simp [Blob.freshBefore, hg4, hg3, hg2]
              · rw [updateFS_ne _ _ _ _ hpk, hfs3] at hp
                by_cases hpc : p = scp
                · subst hpc
                  rw [updateFS_self] at hp
                  cases hp
                  subst hhc
                  simp [Blob.freshBefore, hg4, hg3, hg2]
                · rw [updateFS_ne _ _ _ _ hpc, hfs2] at hp
                  exact Blob.freshBefore_mono (hf p b hp)
                    (by rw [hg4, hg3, hg2]; exact Nat.le_succ _)

theorem loadOrCreate_early {sb : ServiceCertificateBundle} {w : World}
    {scp skp cap kap : CertPath} {sl cl : Nat} {cn : Str} {hs : List Str}
    {du : Bool} {hc hk : Blob}
    (h1 : w.fs scp = .present hc) (h2 : w.fs skp = .present hk) :
    sb.loadOrCreateServiceCertificates w scp skp cap kap sl cl cn hs du =
      ({ sb with HostCertificate := some hc, HostKey := some hk }, w, none) := by
  simp [ServiceCertificateBundle.loadOrCreateServiceCertificates,
    loadCertificateFile, loadKeyFile, h1, h2]

theorem loadOrCreate_keyfail {sb : ServiceCertificateBundle} {w : World}
    {scp skp cap kap : CertPath} {sl cl : Nat} {cn : Str} {hs : List Str}
    {du : Bool} {hc : Blob}
    (h1 : w.fs scp = .present hc)
    (h2 : w.fs skp = .absent ∨ w.fs skp = .unreadable) :
    optErrIsInconsistentPair
        (sb.loadOrCreateServiceCertificates w scp skp cap kap sl cl cn
          hs du).2.2 = true ∧
      (sb.loadOrCreateServiceCertificates w scp skp cap kap sl cl cn
          hs du).2.1 = w := by
  rcases h2 with h2 | h2 <;>
    simp [ServiceCertificateBundle.loadOrCreateServiceCertificates,
      loadCertificateFile, loadKeyFile, h1, h2, optErrIsInconsistentPair,
      Err.isInconsistentPair]

theorem loadOrCreate_create_all {sb : ServiceCertificateBundle} {w : World}
    {scp skp cap kap : CertPath} {sl cl : Nat} {cn : Str} {hs : List Str}
    {du : Bool}
    (hscp : w.fs scp = .absent) (hskp : w.fs skp = .absent)
    (hcap : w.fs cap = .absent) (hkap : w.fs kap = .absent)
    (d1 : kap ≠ cap) (d2 : scp ≠ cap) (d3 : scp ≠ kap) (d4 : skp ≠ cap)
    (d5 : skp ≠ kap) (d6 : skp ≠ scp) :
    sb.loadOrCreateServiceCertificates w scp skp cap kap sl cl cn hs du =
      ({ sb with
         CACertificate := some (.caCertGen w.gen cl caCommonName),
         CAKey := some (.caKeyGen w.gen),
         HostCertificate := some (.svcCertGen (w.gen + 1) sl cn hs du w.gen),
         HostKey := some (.svcKeyGen (w.gen + 1)) },
       { fs := updateFS (updateFS (updateFS (updateFS w.fs cap
                  (.present (.caCertGen w.gen cl caCommonName))) kap
                  (.present (.caKeyGen w.gen))) scp
                  (.present (.svcCertGen (w.gen + 1) sl cn hs du w.gen))) skp
                  (.present (.svcKeyGen (w.gen + 1))),
         gen := w.gen + 2, writes := w.writes ++ [cap, kap, scp, skp] },
       none) := by
  have hstep1 : w.fs scp ≠ .absent → False := fun hn => hn hscp
  have e1 :
      updateFS (updateFS w.fs cap
        (.present (.caCertGen w.gen cl caCommonName))) kap
        (.present (.caKeyGen w.gen)) scp = .absent := by
    rw [updateFS_ne _ _ _ _ d3, updateFS_ne _ _ _ _ d2]
    exact hscp
  have e2 :
      updateFS (updateFS w.fs cap
        (.present (.caCertGen w.gen cl caCommonName))) kap
        (.present (.caKeyGen w.gen)) skp = .absent := by
    rw [updateFS_ne _ _ _ _ d5, updateFS_ne _ _ _ _ d4]
    exact hskp
  simp only [ServiceCertificateBundle.loadOrCreateServiceCertificates,
    loadCertificateFile, hscp, hcap, createServiceCA_absent hcap hkap d1]
  rw [issueFromLoadedCA_eval rfl rfl e1 e2 d6]
  simp

theorem issueFromLoadedCA_ok_hostPresent {sb1 : ServiceCertificateBundle}
    {w1 : World} {scp skp : CertPath} {sl : Nat} {cn : Str} {hs : List Str}
    {du : Bool} {sb' : ServiceCertificateBundle} {w' : World}
    (hne : skp ≠ scp)
    (h : sb1.issueFromLoadedCA w1 scp skp sl cn hs du = (sb', w', none)) :
    ∃ bb, w'.fs scp = .present bb := by
  unfold ServiceCertificateBundle.issueFromLoadedCA at h
  split at h
  · simp at h
  · split at h
    · simp at h
    · split at h
      · simp at h
      · next hostCert hostKey w2 hck =>
        split at h
        · simp at h
        · next w3 hw3 =>
          obtain ⟨hfs3, -, -⟩ := writePEMToFile_ok_effects hw3
          split at h
          · simp at h
          · next w4 hw4 =>
            obtain ⟨hfs4, -, -⟩ := writePEMToFile_ok_effects hw4
            simp only [Prod.mk.injEq] at h
            obtain ⟨-, hw, -⟩ := h
            subst hw
            refine ⟨hostCert, ?_⟩
            rw [hfs4, updateFS_ne _ _ _ _ (Ne.symm hne), hfs3, updateFS_self]

theorem loadOrCreate_preserves {sb : ServiceCertificateBundle} {w : World}
    {scp skp cap kap : CertPath} {sl cl : Nat} {cn : Str} {hs : List Str}
    {du : Bool} {sb' : ServiceCertificateBundle} {w' : World} {r : Option Err}
    (h : sb.loadOrCreateServiceCertificates w scp skp cap kap sl cl cn hs du
       = (sb', w', r)) :
    (∀ q, q ≠ scp → q ≠ skp → q ≠ cap → q ≠ kap → w'.fs q = w.fs q) ∧
      w.gen ≤ w'.gen ∧ (FreshInv w → FreshInv w') := by
  unfold ServiceCertificateBundle.loadOrCreateServiceCertificates at h
  split at h
  · -- the host certificate loaded: no writes in any sub-branch
    split at h <;>
      (simp only [Prod.mk.injEq] at h
       obtain ⟨-, hw, -⟩ := h
       subst hw
       exact ⟨fun q _ _ _ _ => rfl, le_refl _, id⟩)
  · -- creation path
    split at h
    · -- the CA phase returned an error
      next sb1 w1 e heq =>
      simp only [Prod.mk.injEq] at h
      obtain ⟨-, hw, -⟩ := h
      subst hw
      split at heq
      · -- CA cert loaded, CA key load failed
        split at heq <;> simp only [Prod.mk.injEq] at heq
        · obtain ⟨-, hw1, -⟩ := heq
          subst hw1
          exact ⟨fun q _ _ _ _ => rfl, le_refl _, id⟩
        · simp at heq
      · -- CA creation attempted and failed
        split at heq <;> simp only [Prod.mk.injEq] at heq
        · next sbx wx e hca =>
          obtain ⟨-, hw1, -⟩ := heq
          subst hw1
          obtain ⟨hf, hg, hfr⟩ := createServiceCA_preserves hca
          exact ⟨fun q _ _ hq3 hq4 => hf q hq3 hq4, hg, hfr⟩
        · simp at heq
      · -- fall-through with nil CA certificate: returns none, not an error
        simp at heq
    · -- the CA phase succeeded; the issue tail ran
      next sb1 w1 heq =>
      have hiss := issueFromLoadedCA_preserves h
      have hpre : (∀ q, q ≠ cap → q ≠ kap → w1.fs q = w.fs q) ∧
          w.gen ≤ w1.gen ∧ (FreshInv w → FreshInv w1) := by
        split at heq
        · split at heq <;> simp only [Prod.mk.injEq] at heq
          · simp at heq
          · obtain ⟨-, hw1, -⟩ := heq
            subst hw1
            exact ⟨fun q _ _ => rfl, le_refl _, id⟩
        · split at heq <;> simp only [Prod.mk.injEq] at heq
          · simp at heq
          · next sbx wx hca =>
            obtain ⟨-, hw1, -⟩ := heq
            subst hw1
            exact createServiceCA_preserves hca
        · simp only [Prod.mk.injEq] at heq
          obtain ⟨-, hw1, -⟩ := heq
          subst hw1
          exact ⟨fun q _ _ => rfl, le_refl _, id⟩
      obtain ⟨hf1, hg1, hfr1⟩ := hpre
      obtain ⟨hf2, hg2, hfr2⟩ := hiss
      refine ⟨fun q hq1 hq2 hq3 hq4 => ?_, le_trans hg1 hg2,
        fun hfr => hfr2 (hfr1 hfr)⟩
      rw [hf2 q hq1 hq2, hf1 q hq3 hq4]

theorem loadOrCreate_ok_hostPresent {sb : ServiceCertificateBundle} {w : World}
    {scp skp cap kap : CertPath} {sl cl : Nat} {cn : Str} {hs : List Str}
    {du : Bool} {sb' : ServiceCertificateBundle} {w' : World}
    (hne : skp ≠ scp)
    (h : sb.loadOrCreateServiceCertificates w scp skp cap kap sl cl cn hs du
       = (sb', w', none)) :
    ∃ bb, w'.fs scp = .present bb := by
  unfold ServiceCertificateBundle.loadOrCreateServiceCertificates at h
  split at h
  · next c hc =>
    split at h <;> simp only [Prod.mk.injEq] at h
    · simp at h
    · simp at h
    · obtain ⟨-, hw, -⟩ := h
      subst hw
      exact ⟨c, loadCertificateFile_ok hc⟩
  · split at h
    · simp only [Prod.mk.injEq] at h
      simp at h
    · exact issueFromLoadedCA_ok_hostPresent hne h

theorem preserves_comp {w1 w2 w3 : World}
    (h1 : w1.gen ≤ w2.gen ∧ (FreshInv w1 → FreshInv w2))
    (h2 : w2.gen ≤ w3.gen ∧ (FreshInv w2 → FreshInv w3)) :
    w1.gen ≤ w3.gen ∧ (FreshInv w1 → FreshInv w3) :=
  ⟨le_trans h1.1 h2.1, fun hf => h2.2 (h1.2 hf)⟩

theorem loadOrCreate_preserves' {sb : ServiceCertificateBundle} {w : World}
    {scp skp cap kap : CertPath} {sl cl : Nat} {cn : Str} {hs : List Str}
    {du : Bool} {sb' : ServiceCertificateBundle} {w' : World} {r : Option Err}
    (h : sb.loadOrCreateServiceCertificates w scp skp cap kap sl cl cn hs du
       = (sb', w', r)) :
    w.gen ≤ w'.gen ∧ (FreshInv w → FreshInv w') :=
  ⟨(loadOrCreate_preserves h).2.1, (loadOrCreate_preserves h).2.2⟩

theorem initializeFromConfig_preserves {b : CertificateBundle} {w : World}
    {c : Config} {b' : CertificateBundle} {w' : World} {r : Outcome}
    (h : b.InitializeFromConfig w c = (b', w', r)) :
    w.gen ≤ w'.gen ∧ (FreshInv w → FreshInv w') := by
  unfold CertificateBundle.InitializeFromConfig at h
  split at h
  · simp only [Prod.mk.injEq] at h
    obtain ⟨-, hw, -⟩ := h
    subst hw
    exact ⟨le_refl _, id⟩
  · split at h
    · simp only [Prod.mk.injEq] at h
      obtain ⟨-, hw, -⟩ := h
      subst hw
      exact ⟨le_refl _, id⟩
    · split at h
      · simp only [Prod.mk.injEq] at h
        obtain ⟨-, hw, -⟩ := h
        subst hw
        exact ⟨le_refl _, id⟩
      · split at h
        · simp only [Prod.mk.injEq] at h
          obtain ⟨-, hw, -⟩ := h
          subst hw
          exact ⟨le_refl _, id⟩
        · split at h
          · next sb1 w1 e h1 =>
            simp only [Prod.mk.injEq] at h
            obtain ⟨-, hw, -⟩ := h
            subst hw
            exact loadOrCreate_preserves' h1
          · next sb1 w1 h1 =>
            split at h
            · next sb2 w2 e h2 =>
              simp only [Prod.mk.injEq] at h
              obtain ⟨-, hw, -⟩ := h
              subst hw
              exact preserves_comp (loadOrCreate_preserves' h1)
                (loadOrCreate_preserves' h2)
            · next sb2 w2 h2 =>
              split at h
              · next sb3 w3 e h3 =>
                simp only [Prod.mk.injEq] at h
                obtain ⟨-, hw, -⟩ := h
                subst hw
                exact preserves_comp (preserves_comp
                  (loadOrCreate_preserves' h1) (loadOrCreate_preserves' h2))
                  (loadOrCreate_preserves' h3)
              · next sb3 w3 h3 =>
                split at h
                · next sb4 w4 e h4 =>
                  simp only [Prod.mk.injEq] at h
                  obtain ⟨-, hw, -⟩ := h
                  subst hw
                  exact preserves_comp (preserves_comp (preserves_comp
                    (loadOrCreate_preserves' h1) (loadOrCreate_preserves' h2))
                    (loadOrCreate_preserves' h3)) (loadOrCreate_preserves' h4)
                · next sb4 w4 h4 =>
                  split at h <;>
                    next sb5 w5 h5 =>
                      simp only [Prod.mk.injEq] at h
                      obtain ⟨-, hw, -⟩ := h
                      subst hw
                      exact preserves_comp (preserves_comp (preserves_comp
                        (preserves_comp (loadOrCreate_preserves' h1)
                          (loadOrCreate_preserves' h2))
                        (loadOrCreate_preserves' h3))
                        (loadOrCreate_preserves' h4))
                        (loadOrCreate_preserves' h5)

theorem initializeFromConfig_ok_nodeCertPresent {b : CertificateBundle}
    {w : World} {c : Config} {b' : CertificateBundle} {w' : World}
    (h : b.InitializeFromConfig w c = (b', w', .ok)) :
    ∃ bb, w'.fs Locator.NodeCertPath = .present bb := by
  unfold CertificateBundle.InitializeFromConfig at h
  split at h
  · simp at h
  · split at h
    · simp at h
    · split at h
      · simp at h
      · split at h
        · simp at h
        · split at h
          · simp at h
          · next sb1 w1 h1 =>
            obtain ⟨bb, hbb⟩ := loadOrCreate_ok_hostPresent (by decide) h1
            split at h
            · simp at h
            · next sb2 w2 h2 =>
              have f2 := (loadOrCreate_preserves h2).1 Locator.NodeCertPath
                (by decide) (by decide) (by decide) (by decide)
              split at h
              · simp at h
              · next sb3 w3 h3 =>
                have f3 := (loadOrCreate_preserves h3).1 Locator.NodeCertPath
                  (by decide) (by decide) (by decide) (by decide)
                split at h
                · simp at h
                · next sb4 w4 h4 =>
                  have f4 := (loadOrCreate_preserves h4).1 Locator.NodeCertPath
                    (by decide) (by decide) (by decide) (by decide)
                  split at h
                  · simp at h
                  · next sb5 w5 h5 =>
                    have f5 := (loadOrCreate_preserves h5).1 Locator.NodeCertPath
                      (by decide) (by decide) (by decide) (by decide)
                    simp only [Prod.mk.injEq] at h
                    obtain ⟨-, hw, -⟩ := h
                    subst hw
                    refine ⟨bb, ?_⟩
                    rw [f5, f4, f3, f2]
                    exact hbb

theorem rotateServiceCert_ok {sb : ServiceCertificateBundle} {w : World}
    {cp kp : CertPath} {sl : Nat} {cn ss : Str} {hs : List Str} {du : Bool}
    {w' : World} (hne : kp ≠ cp)
    (h : sb.rotateServiceCert w cp kp sl cn ss hs du = (w', none)) :
    (∃ gi, w'.fs cp = .present (.svcCertGen w.gen sl cn hs du gi)) ∧
      w'.fs kp = .present (.svcKeyGen w.gen) ∧ w'.gen = w.gen + 1 ∧
      (∀ q, q ≠ cp → q ≠ kp → w'.fs q = w.fs q) := by
  unfold ServiceCertificateBundle.rotateServiceCert at h
  split at h
  · simp at h
  · split at h
    · simp at h
    · split at h
      · simp at h
      · next certPEM keyPEM w1 hck =>
        obtain ⟨⟨gi, hhc⟩, hhk, hfs1, hg1, -⟩ := CreateServiceCertAndKey_ok hck
        split at h
        · split at h
          · simp at h
          · next w2 hw2 =>
            obtain ⟨hfs2, hg2, -⟩ := writePEMToFile_ok_effects hw2
            split at h
            · split at h
              · simp at h
              · next w3 hw3 =>
                obtain ⟨hfs3, hg3, -⟩ := writePEMToFile_ok_effects hw3
                simp only [Prod.mk.injEq] at h
                obtain ⟨hw, -⟩ := h
                subst hw
                subst hhc
                subst hhk
                refine ⟨⟨gi, ?_⟩, ?_, ?_, fun q hq1 hq2 => ?_⟩
                · rw [hfs3, updateFS_ne _ _ _ _ (Ne.symm hne), hfs2,
                    updateFS_self]
                · rw [hfs3, updateFS_self]
                · rw [hg3, hg2, hg1]
                · rw [hfs3, updateFS_ne _ _ _ _ hq2, hfs2,
                    updateFS_ne _ _ _ _ hq1, hfs1]
            · simp at h
        · simp at h

theorem rotateStep_frame {sbx : ServiceCertificateBundle} {w wX : World}
    {cp kp : CertPath} {sl : Nat} {cn ss : Str} {hs : List Str} {du : Bool}
    (hne : kp ≠ cp)
    (h : (if sbx.CACertificate = none then ((w, none) : World × Option Err)
          else sbx.rotateServiceCert w cp kp sl cn ss hs du) = (wX, none)) :
    w.gen ≤ wX.gen ∧ ∀ q, q ≠ cp → q ≠ kp → wX.fs q = w.fs q := by
  split at h
  · simp only [Prod.mk.injEq] at h
    obtain ⟨hw, -⟩ := h
    subst hw
    exact ⟨le_refl _, fun q _ _ => rfl⟩
  · obtain ⟨-, -, hg, hf⟩ := rotateServiceCert_ok hne h
    exact ⟨by omega, hf⟩

theorem rotateStep_run {sbx : ServiceCertificateBundle} {w wX : World}
    {cp kp : CertPath} {sl : Nat} {cn ss : Str} {hs : List Str} {du : Bool}
    {cb : Blob} (hne : kp ≠ cp) (hca : sbx.CACertificate = some cb)
    (h : (if sbx.CACertificate = none then ((w, none) : World × Option Err)
          else sbx.rotateServiceCert w cp kp sl cn ss hs du) = (wX, none)) :
    (∃ gi, wX.fs cp = .present (.svcCertGen w.gen sl cn hs du gi)) ∧
      wX.fs kp = .present (.svcKeyGen w.gen) ∧ wX.gen = w.gen + 1 := by
  rw [if_neg (by simp [hca])] at h
  obtain ⟨h1, h2, h3, -⟩ := rotateServiceCert_ok hne h
  exact ⟨h1, h2, h3⟩

theorem loadCAIfExists_ok_certPresent {w : World} {cap kap : CertPath}
    {sbX : ServiceCertificateBundle} {cb : Blob}
    (hcb : w.fs cap = .present cb)
    (h : ServiceCertificateBundle.loadCACertAndKeyIfExists {} w cap kap
       = (sbX, none)) :
    sbX.CACertificate = some cb := by
  rcases hk : w.fs kap with _ | kb | _ <;>
    simp only [ServiceCertificateBundle.loadCACertAndKeyIfExists,
      ServiceCertificateBundle.loadCACertAndKey, loadCertificateFile,
      loadKeyFile, hcb, hk] at h <;>
    simp only [Prod.mk.injEq] at h
  · obtain ⟨hsb, -⟩ := h
    subst hsb
    rfl
  · obtain ⟨hsb, -⟩ := h
    subst hsb
    rfl
  · simp at h

theorem freshInv_ne_svcCert {w : World} (hf : FreshInv w) {p : CertPath}
    {t sl : Nat} {cn : Str} {hs : List Str} {du : Bool} {gi : Nat}
    (ht : w.gen ≤ t) : w.fs p ≠ .present (.svcCertGen t sl cn hs du gi) := by
  intro hp
  have hb := hf p _ hp
  simp only [Blob.freshBefore] at hb
  omega

theorem freshInv_ne_svcKey {w : World} (hf : FreshInv w) {p : CertPath}
    {t : Nat} (ht : w.gen ≤ t) : w.fs p ≠ .present (.svcKeyGen t) := by
  intro hp
  have hb := hf p _ hp
  simp only [Blob.freshBefore] at hb
  omega

theorem collect_ok_inversion {w : World} {b : CertificateBundle}
    (h : collectLocalCABundle w = (b, none)) :
    ∃ sbIN sbUA sbSQL sbRPC sbUI,
      ServiceCertificateBundle.loadCACertAndKeyIfExists {} w
        Locator.CACertPath Locator.CAKeyPath = (sbIN, none) ∧
      ServiceCertificateBundle.loadCACertAndKeyIfExists {} w
        Locator.ClientCACertPath Locator.ClientCAKeyPath = (sbUA, none) ∧
      ServiceCertificateBundle.loadCACertAndKeyIfExists {} w
        Locator.SQLServiceCACertPath Locator.SQLServiceCAKeyPath
        = (sbSQL, none) ∧
      ServiceCertificateBundle.loadCACertAndKeyIfExists {} w
        Locator.RPCServiceCACertPath Locator.RPCServiceCAKeyPath
        = (sbRPC, none) ∧
      ServiceCertificateBundle.loadCACertAndKeyIfExists {} w
        Locator.UICACertPath Locator.UICAKeyPath = (sbUI, none) ∧
      b = ⟨sbIN, sbUA, sbSQL, sbRPC, sbUI⟩ := by
  unfold collectLocalCABundle at h
  split at h
  · simp at h
  · next sbIN h1 =>
    split at h
    · simp at h
    · next sbUA h2 =>
      split at h
      · simp at h
      · next sbSQL h3 =>
        split at h
        · simp at h
        · next sbRPC h4 =>
          split at h
          · simp at h
          · next sbUI h5 =>
            simp only [Prod.mk.injEq] at h
            obtain ⟨hb, -⟩ := h
            exact ⟨sbIN, sbUA, sbSQL, sbRPC, sbUI, h1, h2, h3, h4, h5,
              hb.symm⟩

theorem ca_ne_host (s s' : Slot) :
    ((s, CertKind.caCert) : CertPath) ≠ (s', CertKind.hostCert) := by
  simp

theorem ca_ne_hostKey (s s' : Slot) :
    ((s, CertKind.caCert) : CertPath) ≠ (s', CertKind.hostKey) := by
  simp

theorem cakey_ne_host (s s' : Slot) :
    ((s, CertKind.caKey) : CertPath) ≠ (s', CertKind.hostCert) := by
  simp

theorem cakey_ne_hostKey (s s' : Slot) :
    ((s, CertKind.caKey) : CertPath) ≠ (s', CertKind.hostKey) := by
  simp

/-- C6: for every state reached by a successful bootstrap (from any world
satisfying the freshness invariant that encodes randomness of key
generation), a successful rotateGeneratedCerts changes the host
certificate and host key bytes of every slot whose CA certificate file is
present, while the CA certificate and CA key bytes of every slot remain
byte-identical. -/
theorem claim_C6_rotate_changes_leaf_preserves_CA
    (b0 b1 : CertificateBundle) (w0 w1 w2 : World) (c1 c2 : Config)
    (hfresh : FreshInv w0)
    (hboot : b0.InitializeFromConfig w0 c1 = (b1, w1, .ok))
    (hrot : rotateGeneratedCerts w1 c2 = (w2, .ok)) :
    (∀ s : Slot, (∃ cb, w1.fs (s, .caCert) = .present cb) →
        w2.fs (s, .hostCert) ≠ w1.fs (s, .hostCert) ∧
        w2.fs (s, .hostKey) ≠ w1.fs (s, .hostKey)) ∧
    (∀ s : Slot, w2.fs (s, .caCert) = w1.fs (s, .caCert) ∧
        w2.fs (s, .caKey) = w1.fs (s, .caKey)) := by
  have hf1 : FreshInv w1 := (initializeFromConfig_preserves hboot).2 hfresh
  unfold rotateGeneratedCerts at hrot
  split at hrot
  · simp at hrot
  · next b hco =>
    split at hrot
    · simp at hrot
    · next rpcAddrs hrpc =>
      split at hrot
      · simp at hrot
      · next sqlAddrs hsql =>
        split at hrot
        · simp at hrot
        · next httpAddrs hhttp =>
          split at hrot
          · simp at hrot
          · next wA st1 =>
            split at hrot
            · simp at hrot
            · next wB st2 =>
              split at hrot
              · simp at hrot
              · next wC st3 =>
                split at hrot
                · simp at hrot
                · next wD st4 =>
                  split at hrot
                  · simp at hrot
                  · next wE st5 =>
                    simp only [Prod.mk.injEq] at hrot
                    obtain ⟨hw2, -⟩ := hrot
                    subst hw2
                    obtain ⟨sbIN, sbUA, sbSQL, sbRPC, sbUI, hIN, hUA, hSQL,
                      hRPC, hUI, hb⟩ := collect_ok_inversion hco
                    subst hb
                    have fr1 := rotateStep_frame (by decide) st1
                    have fr2 := rotateStep_frame (by decide) st2
                    have fr3 := rotateStep_frame (by decide) st3
                    have fr4 := rotateStep_frame (by decide) st4
                    have fr5 := rotateStep_frame (by decide) st5
                    have g1 : w1.gen ≤ wA.gen := fr1.1
                    have g2 : w1.gen ≤ wB.gen := le_trans g1 fr2.1
                    have g3 : w1.gen ≤ wC.gen := le_trans g2 fr3.1
                    have g4 : w1.gen ≤ wD.gen := le_trans g3 fr4.1
                    constructor
                    · intro s hs
                      obtain ⟨cb, hcb⟩ := hs
                      cases s
                      · -- InterNode
                        have hsb : sbIN.CACertificate = some cb :=
                          loadCAIfExists_ok_certPresent hcb hIN
                        obtain ⟨⟨gi, hcert⟩, hkey, -⟩ :=
                          rotateStep_run (by decide) hsb st1
                        have hcertE := (fr5.2 _ (by decide) (by decide)).trans
                          ((fr4.2 _ (by decide) (by decide)).trans
                           ((fr3.2 _ (by decide) (by decide)).trans
                            ((fr2.2 _ (by decide) (by decide)).trans hcert)))
                        have hkeyE := (fr5.2 _ (by decide) (by decide)).trans
                          ((fr4.2 _ (by decide) (by decide)).trans
                           ((fr3.2 _ (by decide) (by decide)).trans
                            ((fr2.2 _ (by decide) (by decide)).trans hkey)))
                        exact ⟨fun hq => freshInv_ne_svcCert hf1 (le_refl _)
                            (hq.symm.trans hcertE),
                          fun hq => freshInv_ne_svcKey hf1 (le_refl _)
                            (hq.symm.trans hkeyE)⟩
                      · -- UserAuth
                        have hsb : sbUA.CACertificate = some cb :=
                          loadCAIfExists_ok_certPresent hcb hUA
                        obtain ⟨⟨gi, hcert⟩, hkey, -⟩ :=
                          rotateStep_run (by decide) hsb st2
                        have hcertE := (fr5.2 _ (by decide) (by decide)).trans
                          ((fr4.2 _ (by decide) (by decide)).trans
                           ((fr3.2 _ (by decide) (by decide)).trans hcert))
                        have hkeyE := (fr5.2 _ (by decide) (by decide)).trans
                          ((fr4.2 _ (by decide) (by decide)).trans
                           ((fr3.2 _ (by decide) (by decide)).trans hkey))
                        exact ⟨fun hq => freshInv_ne_svcCert hf1 g1
                            (hq.symm.trans hcertE),
                          fun hq => freshInv_ne_svcKey hf1 g1
                            (hq.symm.trans hkeyE)⟩
                      · -- SQLService
                        have hsb : sbSQL.CACertificate = some cb :=
                          loadCAIfExists_ok_certPresent hcb hSQL
                        obtain ⟨⟨gi, hcert⟩, hkey, -⟩ :=
                          rotateStep_run (by decide) hsb st3
                        have hcertE := (fr5.2 _ (by decide) (by decide)).trans
                          ((fr4.2 _ (by decide) (by decide)).trans hcert)
                        have hkeyE := (fr5.2 _ (by decide) (by decide)).trans
                          ((fr4.2 _ (by decide) (by decide)).trans hkey)
                        exact ⟨fun hq => freshInv_ne_svcCert hf1 g2
                            (hq.symm.trans hcertE),
                          fun hq => freshInv_ne_svcKey hf1 g2
                            (hq.symm.trans hkeyE)⟩
                      · -- RPCService
                        have hsb : sbRPC.CACertificate = some cb :=
                          loadCAIfExists_ok_certPresent hcb hRPC
                        obtain ⟨⟨gi, hcert⟩, hkey, -⟩ :=
                          rotateStep_run (by decide) hsb st4
                        have hcertE := (fr5.2 _ (by decide) (by decide)).trans
                          hcert
                        have hkeyE := (fr5.2 _ (by decide) (by decide)).trans
                          hkey
                        exact ⟨fun hq => freshInv_ne_svcCert hf1 g3
                            (hq.symm.trans hcertE),
                          fun hq => freshInv_ne_svcKey hf1 g3
                            (hq.symm.trans hkeyE)⟩
                      · -- AdminUIService
                        have hsb : sbUI.CACertificate = some cb :=
                          loadCAIfExists_ok_certPresent hcb hUI
                        obtain ⟨⟨gi, hcert⟩, hkey, -⟩ :=
                          rotateStep_run (by decide) hsb st5
                        exact ⟨fun hq => freshInv_ne_svcCert hf1 g4
                            (hq.symm.trans hcert),
                          fun hq => freshInv_ne_svcKey hf1 g4
                            (hq.symm.trans hkey)⟩
                    · intro s
                      constructor
                      · rw [fr5.2 _ (ca_ne_host s _) (ca_ne_hostKey s _),
                          fr4.2 _ (ca_ne_host s _) (ca_ne_hostKey s _),
                          fr3.2 _ (ca_ne_host s _) (ca_ne_hostKey s _),
                          fr2.2 _ (ca_ne_host s _) (ca_ne_hostKey s _),
                          fr1.2 _ (ca_ne_host s _) (ca_ne_hostKey s _)]
                      · rw [fr5.2 _ (cakey_ne_host s _) (cakey_ne_hostKey s _),
                          fr4.2 _ (cakey_ne_host s _) (cakey_ne_hostKey s _),
                          fr3.2 _ (cakey_ne_host s _) (cakey_ne_hostKey s _),
                          fr2.2 _ (cakey_ne_host s _) (cakey_ne_hostKey s _),
                          fr1.2 _ (cakey_ne_host s _) (cakey_ne_hostKey s _)]

theorem splitHostPort_wf {a : Str} (h : wellFormedAddr a) :
    splitHostPort a = .ok (stripPort a) := by
  unfold splitHostPort stripPort
  unfold wellFormedAddr at h
  rw [if_pos h]

theorem extractHostsLoop_wf {addrs : List Str}
    (h : ∀ a ∈ addrs, wellFormedAddr a) (acc : List Str) :
    extractHostsLoop addrs acc =
      .ok (dedupFirstSeen (addrs.map stripPort) acc) := by
  induction addrs generalizing acc with
  | nil => rfl
  | cons a rest ih =>
    rw [extractHostsLoop, splitHostPort_wf (h a (by simp)), List.map_cons,
      dedupFirstSeen]
    exact ih (fun x hx => h x (by simp [hx])) _

theorem initializeFromConfig_guard {b : CertificateBundle} {w : World}
    {c : Config} (h : fileExists w Locator.NodeCertPath = true) :
    b.InitializeFromConfig w c = (b, w, .err .alreadyInitialized) := by
  unfold CertificateBundle.InitializeFromConfig
  rw [if_pos h]

theorem initializeNodeFromBundle_guard {b : CertificateBundle} {w : World}
    {c : Config} (h : fileExists w Locator.NodeCertPath = true) :
    b.InitializeNodeFromBundle w c = (b, w, .err .alreadyInitialized) := by
  unfold CertificateBundle.InitializeNodeFromBundle
  rw [if_pos h]

theorem updateFS4_ne {f : CertPath → FileState} {p1 p2 p3 p4 q : CertPath}
    {v1 v2 v3 v4 : FileState} (h1 : q ≠ p1) (h2 : q ≠ p2) (h3 : q ≠ p3)
    (h4 : q ≠ p4) :
    updateFS (updateFS (updateFS (updateFS f p1 v1) p2 v2) p3 v3) p4 v4 q
      = f q := by
  rw [updateFS_ne _ _ _ _ h4, updateFS_ne _ _ _ _ h3,
    updateFS_ne _ _ _ _ h2, updateFS_ne _ _ _ _ h1]

/-- On an initially empty directory with a well-formed configuration the
bootstrap succeeds, and a second bootstrap on the resulting directory
trips the guard and returns the world unchanged. -/
theorem initializeFromConfig_empty (b0 : CertificateBundle) (w0 : World)
    (c : Config) (hempty : ∀ p, w0.fs p = .absent) (hwf : c.wellFormed) :
    (b0.InitializeFromConfig w0 c).2.2 = .ok ∧
    (∀ b1 : CertificateBundle,
      b1.InitializeFromConfig (b0.InitializeFromConfig w0 c).2.1 c =
        (b1, (b0.InitializeFromConfig w0 c).2.1, .err .alreadyInitialized)) := by
  obtain ⟨wf1, wf2, wf3, wf4, wf5, wf6⟩ := hwf
  have hw0 : w0 = {
      fs := fun _ => .absent, gen := w0.gen, writes := w0.writes } := by
    cases w0 with
    | mk fs gen writes =>
      simp only [World.mk.injEq, and_true, true_and]
      funext p
      exact hempty p
  have hrpc : extractHosts [c.Addr, c.AdvertiseAddr]
      = .ok (dedupFirstSeen ([c.Addr, c.AdvertiseAddr].map stripPort) []) :=
    extractHostsLoop_wf (by
      intro a ha
      simp only [List.mem_cons, List.not_mem_nil, or_false] at ha
      rcases ha with h | h
      · subst h; exact wf1
      · subst h; exact wf2) []
  have hsql : extractHosts [c.SQLAddr, c.SQLAdvertiseAddr]
      = .ok (dedupFirstSeen ([c.SQLAddr, c.SQLAdvertiseAddr].map stripPort) []) :=
    extractHostsLoop_wf (by
      intro a ha
      simp only [List.mem_cons, List.not_mem_nil, or_false] at ha
      rcases ha with h | h
      · subst h; exact wf3
      · subst h; exact wf4) []
  have hhttp : extractHosts [c.HTTPAddr, c.HTTPAdvertiseAddr]
      = .ok (dedupFirstSeen ([c.HTTPAddr, c.HTTPAdvertiseAddr].map stripPort) []) :=
    extractHostsLoop_wf (by
      intro a ha
      simp only [List.mem_cons, List.not_mem_nil, or_false] at ha
      rcases ha with h | h
      · subst h; exact wf5
      · subst h; exact wf6) []
  rw [hw0]
  rcases hsp : c.SplitListenSQL with _ | _ <;>
    simp [CertificateBundle.InitializeFromConfig, hrpc, hsql, hhttp, hsp,
      fileExists, ServiceCertificateBundle.loadOrCreateServiceCertificates,
      loadCertificateFile, loadKeyFile,
      ServiceCertificateBundle.createServiceCA, CreateCACertAndKey,
      ServiceCertificateBundle.issueFromLoadedCA, PEMToCertificates,
      pemDecodeBlock, CreateServiceCertAndKey, writeCertificateFile,
      writeKeyFile, writePEMToFile, updateFS, Locator.NodeCertPath,
      Locator.NodeKeyPath, Locator.CACertPath, Locator.CAKeyPath,
      Locator.ClientNodeCertPath, Locator.ClientNodeKeyPath,
      Locator.ClientCACertPath, Locator.ClientCAKeyPath,
      Locator.SQLServiceCertPath, Locator.SQLServiceKeyPath,
      Locator.SQLServiceCACertPath, Locator.SQLServiceCAKeyPath,
      Locator.RPCServiceCertPath, Locator.RPCServiceKeyPath,
      Locator.RPCServiceCACertPath, Locator.RPCServiceCAKeyPath,
      Locator.UICertPath, Locator.UIKeyPath, Locator.UICACertPath,
      Locator.UICAKeyPath]

theorem initializeNodeFromBundle_ok_nodeCertPresent {b : CertificateBundle}
    {w : World} {c : Config} {b' : CertificateBundle} {w' : World}
    (h : b.InitializeNodeFromBundle w c = (b', w', .ok)) :
    ∃ bb, w'.fs Locator.NodeCertPath = .present bb := by
  unfold CertificateBundle.InitializeNodeFromBundle at h
  split at h
  · simp at h
  · split at h
    · simp at h
    · split at h
      · simp at h
      · split at h
        · simp at h
        · split at h
          · simp at h
          · split at h
            · simp at h
            · split at h
              · next b'' w6 hifc =>
                simp only [Prod.mk.injEq] at h
                obtain ⟨-, hw, -⟩ := h
                subst hw
                exact initializeFromConfig_ok_nodeCertPresent hifc
              · simp at h
              · simp at h

/-- C1: for every certs directory in which the InterNode host certificate
file already exists, bootstrap (InitializeFromConfig) fails with
AlreadyInitialized and performs no writes to any slot's files (the world,
including on-disk bytes and the write log, is returned unchanged). -/
theorem claim_C1_guard_already_initialized (b : CertificateBundle)
    (w : World) (c : Config) (h : fileExists w Locator.NodeCertPath = true) :
    b.InitializeFromConfig w c = (b, w, .err .alreadyInitialized) :=
  initializeFromConfig_guard h

theorem claim_C1_witness :
    CertificateBundle.InitializeFromConfig {} worldNodeCertPresent cfg0 =
      ({}, worldNodeCertPresent, .err .alreadyInitialized) :=
  claim_C1_guard_already_initialized {} worldNodeCertPresent cfg0 (by decide)

/-- C2 (counterexample): on a concrete empty directory with a fixed
well-formed configuration the first bootstrap succeeds but the second
does not succeed, refuting the claim that two consecutive bootstraps
succeed both times. -/
theorem claim_C2_counterexample :
    (CertificateBundle.InitializeFromConfig {} emptyWorld cfg0).2.2 = .ok ∧
    ¬ ((CertificateBundle.InitializeFromConfig {}
        (CertificateBundle.InitializeFromConfig {} emptyWorld cfg0).2.1
        cfg0).2.2 = .ok) := by
  exact ⟨by decide, by decide⟩

/-- C2 (amended): on every initially empty certs directory with a fixed
well-formed configuration, the first bootstrap succeeds; the second
bootstrap fails with AlreadyInitialized (the safety guard) and performs
zero filesystem writes, leaving every file byte-identical to the state
after the first run (the world is returned unchanged). -/
theorem claim_C2_amended_second_run_guarded (c : Config) (w0 : World)
    (b0 b1 : CertificateBundle) (hempty : ∀ p, w0.fs p = .absent)
    (hwf : c.wellFormed) :
    (b0.InitializeFromConfig w0 c).2.2 = .ok ∧
    b1.InitializeFromConfig (b0.InitializeFromConfig w0 c).2.1 c =
      (b1, (b0.InitializeFromConfig w0 c).2.1, .err .alreadyInitialized) :=
  ⟨(initializeFromConfig_empty b0 w0 c hempty hwf).1,
   (initializeFromConfig_empty b0 w0 c hempty hwf).2 b1⟩

theorem claim_C2_witness :
    (CertificateBundle.InitializeFromConfig {} emptyWorld cfg0).2.2 = .ok ∧
    CertificateBundle.InitializeFromConfig {}
        (CertificateBundle.InitializeFromConfig {} emptyWorld cfg0).2.1 cfg0 =
      ({}, (CertificateBundle.InitializeFromConfig {} emptyWorld cfg0).2.1,
       .err .alreadyInitialized) :=
  claim_C2_amended_second_run_guarded cfg0 emptyWorld {} {}
    (fun _ => rfl)
    ⟨by decide, by decide, by decide, by decide, by decide, by decide⟩

/-- C3: for every slot whose host certificate file is present but whose
host key file cannot be loaded (absent or unreadable), the load-or-create
cascade fails with an InconsistentPair-class error and performs no writes
(the world is returned unchanged). -/
theorem claim_C3_inconsistent_pair (sb : ServiceCertificateBundle)
    (w : World) (scp skp cap kap : CertPath) (sl cl : Nat) (cn : Str)
    (hs : List Str) (du : Bool) (hc : Blob)
    (hcert : w.fs scp = .present hc)
    (hkey : w.fs skp = .absent ∨ w.fs skp = .unreadable) :
    optErrIsInconsistentPair
        (sb.loadOrCreateServiceCertificates w scp skp cap kap sl cl cn
          hs du).2.2 = true ∧
      (sb.loadOrCreateServiceCertificates w scp skp cap kap sl cl cn
          hs du).2.1 = w :=
  loadOrCreate_keyfail hcert hkey

theorem claim_C3_witness :
    optErrIsInconsistentPair
        (ServiceCertificateBundle.loadOrCreateServiceCertificates {} worldC3
          Locator.NodeCertPath Locator.NodeKeyPath Locator.CACertPath
          Locator.CAKeyPath defaultCertLifetime defaultCALifetime nodeUser
          [] true).2.2 = true ∧
      (ServiceCertificateBundle.loadOrCreateServiceCertificates {} worldC3
          Locator.NodeCertPath Locator.NodeKeyPath Locator.CACertPath
          Locator.CAKeyPath defaultCertLifetime defaultCALifetime nodeUser
          [] true).2.1 = worldC3 :=
  claim_C3_inconsistent_pair {} worldC3 Locator.NodeCertPath
    Locator.NodeKeyPath Locator.CACertPath Locator.CAKeyPath
    defaultCertLifetime defaultCALifetime nodeUser [] true (.raw [7])
    (by decide) (Or.inl (by decide))

/-- C4 (counterexample): after a successful receiveBundle on a concrete
empty directory, a second receiveBundle fails with AlreadyInitialized at
the initial guard, not with AlreadyExists at the CA-write step. -/
theorem claim_C4_counterexample :
    (bundleAll.InitializeNodeFromBundle emptyWorld cfg0).2.2 = .ok ∧
    (bundleAll.InitializeNodeFromBundle
        (bundleAll.InitializeNodeFromBundle emptyWorld cfg0).2.1 cfg0).2.2
      = .err .alreadyInitialized ∧
    Outcome.isCAWriteStepFailure
      (bundleAll.InitializeNodeFromBundle
        (bundleAll.InitializeNodeFromBundle emptyWorld cfg0).2.1 cfg0).2.2
      = false := by
  exact ⟨by decide, by decide, by decide⟩

/-- C4 (amended): after every successful receiveBundle
(InitializeNodeFromBundle), invoking receiveBundle again on the same
directory fails with AlreadyInitialized at the initial guard (the
InterNode host certificate now exists), before the CA-write step is
reached, leaving the directory unchanged. -/
theorem claim_C4_amended_second_receive_guarded (b b2 : CertificateBundle)
    (w : World) (c c2 : Config) (b1 : CertificateBundle) (w1 : World)
    (h : b.InitializeNodeFromBundle w c = (b1, w1, .ok)) :
    b2.InitializeNodeFromBundle w1 c2 = (b2, w1, .err .alreadyInitialized) := by
  obtain ⟨bb, hbb⟩ := initializeNodeFromBundle_ok_nodeCertPresent h
  exact initializeNodeFromBundle_guard (by simp [fileExists, hbb])

theorem claim_C4_witness :
    CertificateBundle.InitializeNodeFromBundle {}
        (bundleAll.InitializeNodeFromBundle emptyWorld cfg0).2.1 cfg0 =
      ({}, (bundleAll.InitializeNodeFromBundle emptyWorld cfg0).2.1,
       .err .alreadyInitialized) :=
  claim_C4_amended_second_receive_guarded bundleAll {} emptyWorld cfg0 cfg0
    (bundleAll.InitializeNodeFromBundle emptyWorld cfg0).1
    (bundleAll.InitializeNodeFromBundle emptyWorld cfg0).2.1 rfl

/-- C5: with the host certificate absent and the CA certificate file
unreadable (a read failure other than not-found), the cascade does not
fail with an error reporting that read failure: the missing else case
falls through with a nil in-memory CA certificate and the operation fails
later with a PEM-decode error instead (evaluated here at the failing
input). -/
theorem claim_C5_missing_else_divergence :
    ServiceCertificateBundle.loadOrCreateServiceCertificates {} worldC5
      Locator.NodeCertPath Locator.NodeKeyPath Locator.CACertPath
      Locator.CAKeyPath defaultCertLifetime defaultCALifetime nodeUser []
      true = ({}, worldC5, some .decodePEMCACert) := by
  rfl

theorem claim_C6_witness :
    (rotateGeneratedCerts
        (CertificateBundle.InitializeFromConfig {} emptyWorld cfg0).2.1
        cfg0).1.fs (.interNode, .hostCert)
      ≠ (CertificateBundle.InitializeFromConfig {} emptyWorld
          cfg0).2.1.fs (.interNode, .hostCert) ∧
    (rotateGeneratedCerts
        (CertificateBundle.InitializeFromConfig {} emptyWorld cfg0).2.1
        cfg0).1.fs (.interNode, .caCert)
      = (CertificateBundle.InitializeFromConfig {} emptyWorld
          cfg0).2.1.fs (.interNode, .caCert) := by
  have h := claim_C6_rotate_changes_leaf_preserves_CA {}
    (CertificateBundle.InitializeFromConfig {} emptyWorld cfg0).1
    emptyWorld
    (CertificateBundle.InitializeFromConfig {} emptyWorld cfg0).2.1
    (rotateGeneratedCerts
      (CertificateBundle.InitializeFromConfig {} emptyWorld cfg0).2.1
      cfg0).1
    cfg0 cfg0 (fun _ _ hb => nomatch hb) rfl rfl
  exact ⟨(h.1 .interNode
    ⟨.caCertGen 0 defaultCALifetime caCommonName, by decide⟩).1,
    (h.2 .interNode).1⟩

/-- C7: the hostname-extraction helper does not surface a returned
InvalidAddress error on a malformed "host:port" entry; it terminates the
process abruptly (the source panics), evaluated here at a malformed
input. -/
theorem claim_C7_panics_on_malformed :
    extractHosts ["a:b:c".data] = .panicked .invalidAddress := by
  decide

/-- C8: for every list of well-formed "host:port" strings, extractHosts
returns the hostnames with ports stripped, deduplicated in first-seen
order (the spec-side description dedupFirstSeen of the stripped list). -/
theorem claim_C8_extract_hostnames (addrs : List Str)
    (h : ∀ a ∈ addrs, wellFormedAddr a) :
    extractHosts addrs = .ok (dedupFirstSeen (addrs.map stripPort) []) :=
  extractHostsLoop_wf h []

theorem claim_C8_witness :
    extractHosts ["10.0.0.1:26257".data, "10.0.0.1:26258".data,
      "10.0.0.2:8080".data] = .ok ["10.0.0.1".data, "10.0.0.2".data] := by
  have h := claim_C8_extract_hostnames
    ["10.0.0.1:26257".data, "10.0.0.1:26258".data, "10.0.0.2:8080".data]
    (by decide)
  rw [h]
  decide

/-- C9: for every slot whose CA is loaded in memory but whose
host-certificate file is absent on disk, rotateServiceCert returns an
error after generating (the freshness counter advances) but before
writing (filesystem and write log unchanged): rotation never creates
first-time leaf material. -/
theorem claim_C9_rotate_requires_existing_leaf
    (sb : ServiceCertificateBundle) (w : World) (cp kp : CertPath)
    (sl : Nat) (cn ss : Str) (hs : List Str) (du : Bool)
    (g glt gk : Nat) (gcn : Str)
    (hca : sb.CACertificate = some (.caCertGen g glt gcn))
    (hkey : sb.CAKey = some (.caKeyGen gk))
    (habs : w.fs cp = .absent) :
    sb.rotateServiceCert w cp kp sl cn ss hs du =
      ({ fs := w.fs, gen := w.gen + 1, writes := w.writes },
       some (.rotateOpFailed .notFound)) := by
  simp [ServiceCertificateBundle.rotateServiceCert, hca, hkey,
    PEMToCertificates, pemDecodeBlock, CreateServiceCertAndKey, fileExists,
    habs]

theorem claim_C9_witness :
    ServiceCertificateBundle.rotateServiceCert (suppliedCA 5) emptyWorld
      Locator.NodeCertPath Locator.NodeKeyPath defaultCertLifetime nodeUser
      serviceNameInterNode [] true =
      ({ fs := emptyWorld.fs, gen := emptyWorld.gen + 1,
         writes := emptyWorld.writes }, some (.rotateOpFailed .notFound)) :=
  claim_C9_rotate_requires_existing_leaf (suppliedCA 5) emptyWorld
    Locator.NodeCertPath Locator.NodeKeyPath defaultCertLifetime nodeUser
    serviceNameInterNode [] true 5 defaultCALifetime 5 caCommonName
    rfl rfl rfl

/-- C10: writeCAOrFail on a slot whose in-memory CA fields are nil writes
no files and returns success; consequently InitializeNodeFromBundle with
such a slot proceeds past the CA-write step and the delegated bootstrap
auto-creates a brand-new local CA for that slot (its tag is below the
supplied-bundle tag base) instead of failing. -/
theorem claim_C10_nil_ca_skipped_and_autocreated :
    (∀ (sb : ServiceCertificateBundle) (w : World) (cp kp : CertPath),
        sb.CACertificate = none → sb.CAKey = none →
        sb.writeCAOrFail w cp kp = (w, none)) ∧
    ∀ s : Slot,
      ((bundleWithNilSlot s).InitializeNodeFromBundle emptyWorld
          cfg0).2.2 = .ok ∧
      isLocallyCreatedCA 100
        (((bundleWithNilSlot s).InitializeNodeFromBundle emptyWorld
            cfg0).2.1.fs (s, .caCert)) = true := by
  constructor
  · intro sb w cp kp h1 h2
    simp [ServiceCertificateBundle.writeCAOrFail, h1, h2]
  · intro s
    cases s <;> exact ⟨by decide, by decide⟩

theorem claim_C10_witness :
    ServiceCertificateBundle.writeCAOrFail {} emptyWorld Locator.CACertPath
      Locator.CAKeyPath = (emptyWorld, none) :=
  claim_C10_nil_ca_skipped_and_autocreated.1 {} emptyWorld
    Locator.CACertPath Locator.CAKeyPath rfl rfl
